import Mathlib

/-!
Verification of the guide-generation orchestrator of a game-progression
tracker.  The development shallowly embeds the orchestrator's core logic:
the provider dispatch and Gemini model-fallback sequencing of
`AIManager.call_ai_api`, the HTTP retry loop and response parsing of
`AIManager._call_gemini_api`, the defensive JSON-verdict parsing of
`AIManager._evaluate_gemini_guides`, and the candidate aggregation and
trust-score report rendering of `GameTrackerApp._format_guide_output`.

Python strings are modelled as Lean strings, Python floats as exact
rationals, Python dicts (in insertion order) as association lists, and
network I/O as explicit oracles describing the outcome of each HTTP call.
-/

/-! ### Python string primitives -/

/-- ASCII whitespace recognised by Python `str.strip` / `str.split`. -/
def isPySpace (c : Char) : Bool :=
  c == ' ' || c == '\t' || c == '\n' || c == '\r' || c == Char.ofNat 11 || c == Char.ofNat 12

/-- Python `str.strip()` with no arguments. -/
def pyStrip (s : String) : String :=
  String.mk (((s.toList.dropWhile isPySpace).reverse.dropWhile isPySpace).reverse)

/-- Python `str.lower()` (ASCII case folding). -/
def pyLower (s : String) : String :=
  String.mk (s.toList.map Char.toLower)

/-- Python `str.split()` with no arguments: split on whitespace runs, dropping empties. -/
def pyWords (cs : List Char) : List (List Char) :=
  let step : Char → List (List Char) × List Char → List (List Char) × List Char :=
    fun c acc =>
      if isPySpace c then
        (if acc.2 = [] then acc.1 else acc.2 :: acc.1, [])
      else (acc.1, c :: acc.2)
  let r := cs.foldr step ([], [])
  if r.2 = [] then r.1 else r.2 :: r.1

/-- Join character lists with a separator character. -/
def joinWithChar (sep : Char) : List (List Char) → List Char
  | [] => []
  | [w] => w
  | w :: ws => w ++ sep :: joinWithChar sep ws

/-- The clustering key of `_format_guide_output`: `" ".join(text.lower().split())`. -/
def pyNorm (text : String) : String :=
  String.mk (joinWithChar ' ' (pyWords (pyLower text).toList))

/-- Kernel-computable decimal representation of a natural number. -/
def natReprGo : ℕ → ℕ → List Char
  | 0, _ => []
  | fuel + 1, n => if n = 0 then [] else natReprGo fuel (n / 10) ++ [Char.ofNat (48 + n % 10)]

def natRepr (n : ℕ) : String :=
  if n = 0 then ("0") else String.mk (natReprGo (n + 1) n)

/-- Kernel-computable decimal representation of an integer (Python `str(int)`). -/
def intRepr (n : ℤ) : String :=
  if n < 0 then ("-") ++ natRepr (-n).toNat else natRepr n.toNat

def pow10Z : ℕ → ℤ
  | 0 => 1
  | n + 1 => 10 * pow10Z n

/-- Prefix test on raw character lists. -/
def listIsPrefix : List Char → List Char → Bool
  | [], _ => true
  | _ :: _, [] => false
  | p :: ps, c :: cs => p == c && listIsPrefix ps cs

def strStartsWith (s pre : String) : Bool :=
  listIsPrefix pre.toList s.toList

def strEndsWith (s suf : String) : Bool :=
  listIsPrefix suf.toList.reverse s.toList.reverse

def strDrop (s : String) (n : ℕ) : String :=
  String.mk (s.toList.drop n)

def strDropRight (s : String) (n : ℕ) : String :=
  String.mk (s.toList.take (s.toList.length - n))

def isDigitChar (c : Char) : Bool :=
  48 ≤ c.toNat && c.toNat ≤ 57

def digitsVal (ds : List Char) : ℤ :=
  ds.foldl (fun acc c => acc * 10 + ((c.toNat : ℤ) - 48)) 0

/-- Left brace character, kept out of string literals. -/
def lbraceChar : Char := Char.ofNat 123

/-- Right brace character, kept out of string literals. -/
def rbraceChar : Char := Char.ofNat 125

/-- Double-quote character. -/
def dquoteChar : Char := Char.ofNat 34

/-! ### Exact fractions and float formatting

Python trust percentages and parsed decimal literals are IEEE floats; for the
small fractions reachable here the float result rounds to the same displayed
digits as exact rational arithmetic, so the model uses exact fractions.  The
fraction type is a raw (unnormalised) numerator/denominator pair so that every
operation is kernel-computable; the denominator is positive by construction.
Python's `format` rounds half to even. -/

structure PyRat where
  num : ℤ
  den : ℤ
deriving DecidableEq

def prOfInt (n : ℤ) : PyRat := ⟨n, 1⟩

def prIsZero (q : PyRat) : Bool := q.num == 0

/-- `⌊q⌋` for a fraction with positive denominator. -/
def prFloor (q : PyRat) : ℤ := Int.fdiv q.num q.den

/-- Whether the fraction is an exact integer (`q % 1 == 0` in Python). -/
def prIsInt (q : PyRat) : Bool := Int.emod q.num q.den == 0

def prMul10 (q : PyRat) : PyRat := ⟨q.num * 10, q.den⟩

/-- Multiply by `10^e` (used when applying a decimal exponent). -/
def prMulPow10 (q : PyRat) (e : ℤ) : PyRat :=
  if 0 ≤ e then ⟨q.num * pow10Z e.toNat, q.den⟩ else ⟨q.num, q.den * pow10Z (-e).toNat⟩

/-- Round half to even, as Python's `format` does. -/
def roundHalfEven (q : PyRat) : ℤ :=
  let f := prFloor q
  let r2 := 2 * (q.num - f * q.den)
  if r2 < q.den then f
  else if q.den < r2 then f + 1
  else if Int.emod f 2 = 0 then f else f + 1

/-- Python `f"{q:.1f}"` for the non-negative values that occur here. -/
def oneDecimalRepr (q : PyRat) : String :=
  let n := roundHalfEven (prMul10 q)
  intRepr (Int.fdiv n 10) ++ (".") ++ intRepr (Int.emod n 10)

/-- The per-cluster trust value of `_format_guide_output`:
`100.0 if total == 0 else (count / total) * 100`, as an exact fraction. -/
def trustValue (count total : ℕ) : PyRat :=
  if total = 0 then ⟨100, 1⟩ else ⟨(count : ℤ) * 100, (total : ℤ)⟩

/-- The trust display of `_format_guide_output`:
`f"{v:.1f}%" if v % 1 else f"{int(v)}%"` (for the non-negative values that occur). -/
def trustDisplay (q : PyRat) : String :=
  if ¬ prIsInt q then oneDecimalRepr q ++ ("%") else intRepr (prFloor q) ++ ("%")

/-! ### Data model -/

/-- One generated answer: the `{"text": ..., "sources": [...]}` dict built by the
provider transports. -/
structure Guide where
  text : String
  sources : List String
deriving DecidableEq

/-- One value of the `aggregation` dict of `_format_guide_output`. -/
structure AggEntry where
  text : String
  sources : List String
  count : ℕ
  indices : List ℕ
deriving DecidableEq

/-- One element of the `aggregated_guides` list of `_format_guide_output`. -/
structure RenderEntry where
  displayIndex : ℕ
  text : String
  sources : List String
  trust : String
  count : ℕ
  originalIndices : List ℕ
deriving DecidableEq

/-! ### Python / JSON values

`json.loads` produces ints, floats (including the non-finite literals Python's
parser accepts), strings, booleans, `None`, lists and dicts.  Finite floats are
modelled as exact rationals. -/

inductive PyNum where
  | pint (n : ℤ)
  | pfloat (q : PyRat)
  | pnan
  | pinf
  | pninf
deriving DecidableEq

inductive PyJson where
  | jnull
  | jbool (b : Bool)
  | jnum (n : PyNum)
  | jstr (s : String)
  | jarr (elems : List PyJson)
  | jobj (fields : List (String × PyJson))

/-- Python `dict.get` on an insertion-ordered association list. -/
def jsonLookup (fields : List (String × PyJson)) (key : String) : Option PyJson :=
  match fields with
  | [] => none
  | kv :: rest => if kv.1 = key then some kv.2 else jsonLookup rest key

/-- Python truthiness of a JSON-decoded value. -/
def pyTruthy : PyJson → Bool
  | .jnull => false
  | .jbool b => b
  | .jnum (.pint n) => n != 0
  | .jnum (.pfloat q) => !prIsZero q
  | .jnum _ => true
  | .jstr s => s != ""
  | .jarr l => !l.isEmpty
  | .jobj l => !l.isEmpty

/-- `v == None or v == ""` as tested by `confidence_value not in (None, "")`. -/
def isNoneOrEmptyStr : PyJson → Bool
  | .jnull => true
  | .jstr s => s == ""
  | _ => false

/-- Digit run possibly grouped by single underscores, as Python `int`/`float`
accept between digits. -/
def underscoreDigits : List Char → Bool
  | [] => true
  | '_' :: d :: rest => isDigitChar d && underscoreDigits rest
  | '_' :: [] => false
  | c :: rest => isDigitChar c && underscoreDigits rest

def stripUnderscores (cs : List Char) : List Char :=
  cs.filter (fun c => c != '_')

def parseUnsignedInt (cs : List Char) : Option ℤ :=
  match cs with
  | [] => none
  | c :: _ =>
    if isDigitChar c && underscoreDigits cs then some (digitsVal (stripUnderscores cs))
    else none

/-- Python `int(s)` for a string argument (`None` = `ValueError`). -/
def pyIntOfString (s : String) : Option ℤ :=
  match (pyStrip s).toList with
  | '+' :: rest => parseUnsignedInt rest
  | '-' :: rest => (parseUnsignedInt rest).map (fun n => -n)
  | cs => parseUnsignedInt cs

/-- Truncation toward zero, as Python `int(float)`. -/
def ratTrunc (q : PyRat) : ℤ :=
  Int.tdiv q.num q.den

/-- Python `int(v)` on a JSON-decoded value (`none` = raises). -/
def pyToInt : PyJson → Option ℤ
  | .jnum (.pint n) => some n
  | .jnum (.pfloat q) => some (ratTrunc q)
  | .jnum _ => none
  | .jbool b => some (if b then 1 else 0)
  | .jstr s => pyIntOfString s
  | _ => none

/-- The result of Python `float(...)`. -/
inductive PyFloat where
  | fin (q : PyRat)
  | nan
  | inf
  | ninf
deriving DecidableEq

def takeDigitsU (cs : List Char) : List Char × List Char :=
  cs.span (fun c => isDigitChar c || c == '_')

def splitSignPM (cs : List Char) : Bool × List Char :=
  match cs with
  | '-' :: r => (true, r)
  | '+' :: r => (false, r)
  | _ => (false, cs)

def goodDigitRun (cs : List Char) : Bool :=
  match cs with
  | [] => false
  | c :: _ => isDigitChar c && underscoreDigits cs

/-- Python `float(s)` for the decimal-literal forms (sign, digits, optional
fraction and exponent, underscore grouping) plus `inf`/`infinity`/`nan`. -/
def pyFloatOfString (s : String) : Option PyFloat :=
  let body := pyStrip s
  let cs0 := (pyLower body).toList
  let sp := splitSignPM cs0
  let neg := sp.1
  let cs := sp.2
  if cs = ("inf").toList ∨ cs = ("infinity").toList then
    some (if neg then .ninf else .inf)
  else if cs = ("nan").toList then some .nan
  else
    let ip := takeDigitsU cs
    let haveInt := goodDigitRun ip.1
    let afterInt := if haveInt then ip.2 else cs
    let fr : Option (List Char) × List Char :=
      match afterInt with
      | '.' :: r =>
        let f := takeDigitsU r
        if goodDigitRun f.1 then (some f.1, f.2)
        else if haveInt ∧ f.1 = [] then (some [], f.2)
        else (none, afterInt)
      | _ => (none, afterInt)
    let haveFrac := fr.1.isSome
    if ¬ haveInt ∧ ¬ haveFrac then none
    else if ¬ haveInt ∧ fr.1 = some [] then none
    else
      let fds := (fr.1.getD []).filter (fun c => c != '_')
      let ids := if haveInt then stripUnderscores ip.1 else []
      let mant : PyRat := ⟨digitsVal ids * pow10Z fds.length + digitsVal fds, pow10Z fds.length⟩
      match fr.2 with
      | [] => some (.fin (if neg then ⟨-mant.num, mant.den⟩ else mant))
      | c :: r =>
        if c = 'e' then
          let se := splitSignPM r
          let ed := takeDigitsU se.2
          if goodDigitRun ed.1 ∧ ed.2 = [] then
            let e : ℤ := digitsVal (stripUnderscores ed.1)
            let v : PyRat := prMulPow10 mant (if se.1 then -e else e)
            some (.fin (if neg then ⟨-v.num, v.den⟩ else v))
          else none
        else none

/-- Python `float(v)` on a JSON-decoded value (`none` = raises). -/
def pyToFloat : PyJson → Option PyFloat
  | .jnum (.pint n) => some (.fin (prOfInt n))
  | .jnum (.pfloat q) => some (.fin q)
  | .jnum .pnan => some .nan
  | .jnum .pinf => some .inf
  | .jnum .pninf => some .ninf
  | .jbool b => some (.fin (prOfInt (if b then 1 else 0)))
  | .jstr s => pyFloatOfString s
  | _ => none

/-- Python `f"{x:.0f}"`. -/
def formatDotZeroF : PyFloat → String
  | .fin q => intRepr (roundHalfEven q)
  | .nan => "nan"
  | .inf => "inf"
  | .ninf => "-inf"

/-- Python `repr` of a number (exact for ints; floats only occur here through
`str(...)` fallbacks the verified claims never reach). -/
def pyNumStr : PyNum → String
  | .pint n => intRepr n
  | .pfloat q => if q.den = 1 then intRepr q.num ++ (".0") else intRepr q.num ++ ("e?") ++ intRepr q.den
  | .pnan => "nan"
  | .pinf => "inf"
  | .pninf => "-inf"

/-- Python `str(v)` on a JSON-decoded value (containers approximated; the
verified claims only reach the string and int cases). -/
def pyStrOf : PyJson → String
  | .jnull => "None"
  | .jbool b => if b then "True" else "False"
  | .jnum n => pyNumStr n
  | .jstr s => s
  | .jarr _ => "[...]"
  | .jobj _ => "\x7b...\x7d"

/-! ### Evaluation-dict field extraction (`_format_guide_output` lines 725-742) -/

/-- `int(evaluation.get("recommended_index", 0) or 0)` with `ValueError`/`TypeError`
collapsing to 0; an absent or falsy (`None`/`{}`) evaluation also yields 0. -/
def recommendedOriginalIndex (evaluation : Option (List (String × PyJson))) : ℤ :=
  match evaluation with
  | none => 0
  | some [] => 0
  | some (ev@(_ :: _)) =>
    let v := (jsonLookup ev ("recommended_index")).getD (.jnum (.pint 0))
    let v := if pyTruthy v then v else .jnum (.pint 0)
    (pyToInt v).getD 0

/-- `evaluation_confidence` as computed from `evaluation.get("confidence")`:
empty unless a value distinct from `None`/`""` is present; numeric values are
shown as `f"{float(v):.0f}%"`, non-convertible values fall back to `str(v)`. -/
def confidenceDisplay (evaluation : Option (List (String × PyJson))) : String :=
  match evaluation with
  | none => ""
  | some [] => ""
  | some (ev@(_ :: _)) =>
    match jsonLookup ev ("confidence") with
    | none => ""
    | some v =>
      if isNoneOrEmptyStr v then ""
      else
        match pyToFloat v with
        | some f => formatDotZeroF f ++ ("%")
        | none => pyStrOf v

/-- `str(evaluation.get("reasoning", "")).strip()`. -/
def reasoningDisplay (evaluation : Option (List (String × PyJson))) : String :=
  match evaluation with
  | none => ""
  | some [] => ""
  | some (ev@(_ :: _)) => pyStrip (pyStrOf ((jsonLookup ev ("reasoning")).getD (.jstr (""))))

/-! ### Aggregation (`_format_guide_output` lines 702-723) -/

def hasKey (assoc : List (String × AggEntry)) (key : String) : Bool :=
  assoc.any (fun kv => kv.1 == key)

def updateEntry (assoc : List (String × AggEntry)) (key : String) (f : AggEntry → AggEntry) :
    List (String × AggEntry) :=
  assoc.map (fun kv => if kv.1 = key then (kv.1, f kv.2) else kv)

/-- `for src in guide.get("sources", []): if src: entry["sources"].add(src)`;
the Python `set` is modelled as a deduplicated list in insertion order (its
iteration order is irrelevant: the formatter sorts before display). -/
def addSources (cur : List String) (srcs : List String) : List String :=
  srcs.foldl (fun acc s => if s ≠ "" ∧ s ∉ acc then acc ++ [s] else acc) cur

/-- The aggregation loop: builds the insertion-ordered cluster dict and the
count `total` of non-empty-text candidates; `idx` enumerates from 1 over all
candidates, including dropped empty-text ones. -/
def aggregateGo : List Guide → ℕ → List (String × AggEntry) → ℕ → List (String × AggEntry) × ℕ
  | [], _, assoc, total => (assoc, total)
  | g :: rest, idx, assoc, total =>
    let text := pyStrip g.text
    if text = "" then aggregateGo rest (idx + 1) assoc total
    else
      let key := pyNorm text
      let assoc1 := if hasKey assoc key then assoc else assoc ++ [(key, ⟨text, [], 0, []⟩)]
      let assoc2 := updateEntry assoc1 key (fun e =>
        ⟨e.text, addSources e.sources g.sources, e.count + 1, e.indices ++ [idx]⟩)
      aggregateGo rest (idx + 1) assoc2 (total + 1)

def aggregate (guides : List Guide) : List (String × AggEntry) × ℕ :=
  aggregateGo guides 1 [] 0

/-- The number of candidates with non-empty stripped text, stated independently
of the aggregation fold. -/
def usableCount (guides : List Guide) : ℕ :=
  (guides.filter (fun g => pyStrip g.text ≠ "")).length

/-! ### Decoration (`_format_guide_output` lines 744-764) -/

def insertSorted (s : String) : List String → List String
  | [] => [s]
  | t :: ts => if t < s then t :: insertSorted s ts else s :: t :: ts

/-- Python `sorted` on (distinct) strings. -/
def sortStrings (l : List String) : List String :=
  l.foldr insertSorted []

/-- The `aggregated_guides` build loop: decorates each cluster with its display
index and trust display, and resolves `recommended_original_index` to the
cluster whose `indices` contain it. -/
def buildGo (total : ℕ) (recO : ℤ) :
    List (String × AggEntry) → ℕ → ℕ → List RenderEntry × ℕ
  | [], _, recAgg => ([], recAgg)
  | kv :: rest, dIdx, recAgg =>
    let e := kv.2
    let recAgg' := if recO ≠ 0 ∧ recO ∈ e.indices.map Int.ofNat then dIdx else recAgg
    let re : RenderEntry :=
      ⟨dIdx, e.text, sortStrings e.sources, trustDisplay (trustValue e.count total), e.count, e.indices⟩
    let r := buildGo total recO rest (dIdx + 1) recAgg'
    (re :: r.1, r.2)

def buildAggregated (agg : List (String × AggEntry) × ℕ) (recO : ℤ) : List RenderEntry × ℕ :=
  buildGo agg.2 recO agg.1 1 0

/-! ### Report rendering (`_format_guide_output` lines 766-801) -/

/-- The trust string shown on a cluster line: the evaluator confidence when the
cluster is the recommended one and a confidence string exists, else the
cluster's occurrence-based trust. -/
def clusterTrustShown (recAgg : ℕ) (conf : String) (e : RenderEntry) : String :=
  if e.displayIndex = recAgg ∧ 0 < recAgg ∧ conf ≠ "" then conf else e.trust

def renderEntryLines (recAgg : ℕ) (conf : String) (e : RenderEntry) : List String :=
  let isRec : Bool := e.displayIndex == recAgg && 0 < recAgg
  let marker := if isRec then ("★") else (" ")
  let tvd := clusterTrustShown recAgg conf e
  let suffix := if tvd ≠ "" then (" [Trust Score: ") ++ tvd ++ ("]") else ("")
  let line := natRepr e.displayIndex ++ (". ") ++ marker ++ (" ") ++ e.text ++ suffix
  let srcLines :=
    if e.sources ≠ [] then ("   Sources:") :: e.sources.map (fun s => ("     • ") ++ s) else []
  (line :: srcLines) ++ [("")]

def renderLines (guides : List Guide) (provider : String)
    (evaluation : Option (List (String × PyJson))) (modelName : Option String)
    (refinedContext : Option String) : List String :=
  let agg := aggregate guides
  let recO := recommendedOriginalIndex evaluation
  let conf := confidenceDisplay evaluation
  let reason := reasoningDisplay evaluation
  let built := buildAggregated agg recO
  let entries := built.1
  let recAgg := built.2
  let providerLine := ("Provider: ") ++ provider ++
    (match modelName with
     | some m => if m = "" then ("") else (" (model: ") ++ m ++ (")")
     | none => (""))
  let ctx := pyStrip (refinedContext.getD (""))
  let l1 := [("Guide Hint Suggestions"), providerLine]
  let l2 := if ctx ≠ "" then l1 ++ [(""), ("Context Clarification"), ctx] else l1
  let l3 := l2 ++ [("")]
  let l4 :=
    if entries ≠ [] ∧ 1 < entries.length ∧ recAgg ≠ 0 then
      let td := if conf ≠ "" then conf else ((entries[recAgg - 1]?).map RenderEntry.trust).getD ("")
      let b1 := l3 ++ [("Recommended Guide: #") ++ natRepr recAgg ++ (" — Trust Score: ") ++ td]
      let b2 := if reason ≠ "" then b1 ++ [("Why: ") ++ reason] else b1
      b2 ++ [("")]
    else l3
  l4 ++ (entries.map (renderEntryLines recAgg conf)).flatten

/-- `GameTrackerApp._format_guide_output`. -/
def formatGuideOutput (guides : List Guide) (provider : String)
    (evaluation : Option (List (String × PyJson))) (modelName : Option String)
    (refinedContext : Option String) : String :=
  if guides = [] then ("No guide suggestions available.")
  else pyStrip (String.mk (joinWithChar '\n' ((renderLines guides provider evaluation modelName refinedContext).map String.toList)))

/-! ### JSON parsing (model of `json.loads` as used by `_evaluate_gemini_guides`) -/

def jsonWs (c : Char) : Bool :=
  c == ' ' || c == '\t' || c == '\n' || c == '\r'

def skipJsonWs (cs : List Char) : List Char :=
  cs.dropWhile jsonWs

def hexVal (c : Char) : Option ℕ :=
  if isDigitChar c then some (c.toNat - 48)
  else if 97 ≤ c.toNat && c.toNat ≤ 102 then some (c.toNat - 87)
  else if 65 ≤ c.toNat && c.toNat ≤ 70 then some (c.toNat - 55)
  else none

def parseHex4 : List Char → Option (ℕ × List Char)
  | a :: b :: c :: d :: rest =>
    match hexVal a, hexVal b, hexVal c, hexVal d with
    | some x, some y, some z, some w => some (((x * 16 + y) * 16 + z) * 16 + w, rest)
    | _, _, _, _ => none
  | _ => none

/-- JSON string body parser (after the opening quote).  Surrogate pairs are
combined; a lone surrogate degrades to the null scalar (Lean `Char` cannot
carry it), a corner the verified claims never reach. -/
def parseJStringGo : ℕ → List Char → List Char → Option (String × List Char)
  | 0, _, _ => none
  | fuel + 1, cs, acc =>
    match cs with
    | [] => none
    | c :: rest =>
      if c = dquoteChar then some (String.mk acc.reverse, rest)
      else if c = '\\' then
        match rest with
        | [] => none
        | e :: r2 =>
          if e = dquoteChar then parseJStringGo fuel r2 (dquoteChar :: acc)
          else if e = '\\' then parseJStringGo fuel r2 ('\\' :: acc)
          else if e = '/' then parseJStringGo fuel r2 ('/' :: acc)
          else if e = 'b' then parseJStringGo fuel r2 (Char.ofNat 8 :: acc)
          else if e = 'f' then parseJStringGo fuel r2 (Char.ofNat 12 :: acc)
          else if e = 'n' then parseJStringGo fuel r2 ('\n' :: acc)
          else if e = 'r' then parseJStringGo fuel r2 ('\r' :: acc)
          else if e = 't' then parseJStringGo fuel r2 ('\t' :: acc)
          else if e = 'u' then
            match parseHex4 r2 with
            | none => none
            | some (n, r3) =>
              if 0xD800 ≤ n ∧ n ≤ 0xDBFF then
                match r3 with
                | '\\' :: 'u' :: r4 =>
                  match parseHex4 r4 with
                  | some (m, r5) =>
                    if 0xDC00 ≤ m ∧ m ≤ 0xDFFF then
                      parseJStringGo fuel r5
                        (Char.ofNat (0x10000 + (n - 0xD800) * 0x400 + (m - 0xDC00)) :: acc)
                    else parseJStringGo fuel (('\\' : Char) :: 'u' :: r4) (Char.ofNat n :: acc)
                  | none => parseJStringGo fuel r3 (Char.ofNat n :: acc)
                | _ => parseJStringGo fuel r3 (Char.ofNat n :: acc)
              else parseJStringGo fuel r3 (Char.ofNat n :: acc)
          else none
      else if c.toNat < 32 then none
      else parseJStringGo fuel rest (c :: acc)

def splitSignMinus (cs : List Char) : Bool × List Char :=
  match cs with
  | '-' :: r => (true, r)
  | _ => (false, cs)

def takeDigits (cs : List Char) : List Char × List Char :=
  cs.span isDigitChar

def parseFracPart (cs : List Char) : Option (Option (List Char) × List Char) :=
  match cs with
  | '.' :: r =>
    let d := takeDigits r
    match d.1 with
    | [] => none
    | _ => some (some d.1, d.2)
  | _ => some (none, cs)

def parseExpPart (cs : List Char) : Option (Option ℤ × List Char) :=
  match cs with
  | c :: r =>
    if c = 'e' ∨ c = 'E' then
      let sr := splitSignPM r
      let d := takeDigits sr.2
      match d.1 with
      | [] => none
      | _ => some (some (if sr.1 then -(digitsVal d.1) else digitsVal d.1), d.2)
    else some (none, cs)
  | [] => some (none, [])

/-- JSON number grammar: `-? (0 | [1-9][0-9]*) (\.[0-9]+)? ([eE][+-]?[0-9]+)?`;
an integer literal decodes to a Python int, anything with a fraction or
exponent to a float. -/
def parseJNumber (cs : List Char) : Option (PyNum × List Char) :=
  let s := splitSignMinus cs
  let d := takeDigits s.2
  match d.1 with
  | [] => none
  | d0 :: drest =>
    if d0 = '0' ∧ drest ≠ [] then none
    else
      match parseFracPart d.2 with
      | none => none
      | some fp =>
        match parseExpPart fp.2 with
        | none => none
        | some ep =>
          let rest := ep.2
          let ipVal : ℤ := digitsVal (d0 :: drest)
          match fp.1, ep.1 with
          | none, none => some (.pint (if s.1 then -ipVal else ipVal), rest)
          | fracO, expO =>
            let fds := fracO.getD []
            let mant : PyRat := ⟨ipVal * pow10Z fds.length + digitsVal fds, pow10Z fds.length⟩
            let e : ℤ := expO.getD 0
            let v : PyRat := prMulPow10 mant e
            some (.pfloat (if s.1 then ⟨-v.num, v.den⟩ else v), rest)

def startsWithChars : List Char → List Char → Option (List Char)
  | [], rest => some rest
  | p :: ps, c :: rest => if c = p then startsWithChars ps rest else none
  | _ :: _, [] => none

/-- Python dict construction order for object members: last duplicate key wins,
at the position of its first occurrence. -/
def dictInsert (l : List (String × PyJson)) (k : String) (v : PyJson) :
    List (String × PyJson) :=
  if l.any (fun kv => kv.1 == k) then l.map (fun kv => if kv.1 = k then (k, v) else kv)
  else l ++ [(k, v)]

mutual

def parseJValue : ℕ → List Char → Option (PyJson × List Char)
  | 0, _ => none
  | fuel + 1, cs0 =>
    let cs := skipJsonWs cs0
    match cs with
    | [] => none
    | c :: rest =>
      if c = dquoteChar then
        match parseJStringGo (rest.length + 1) rest [] with
        | some p => some (.jstr p.1, p.2)
        | none => none
      else if c = lbraceChar then
        let r1 := skipJsonWs rest
        match r1 with
        | d :: r2 =>
          if d = rbraceChar then some (.jobj [], r2)
          else
            match parseJObjectItems fuel r1 [] with
            | some p => some (.jobj p.1, p.2)
            | none => none
        | [] => none
      else if c = '[' then
        let r1 := skipJsonWs rest
        match r1 with
        | d :: r2 =>
          if d = ']' then some (.jarr [], r2)
          else
            match parseJArrayItems fuel r1 [] with
            | some p => some (.jarr p.1, p.2)
            | none => none
        | [] => none
      else
        match startsWithChars (("true").toList) cs with
        | some r => some (.jbool true, r)
        | none =>
        match startsWithChars (("false").toList) cs with
        | some r => some (.jbool false, r)
        | none =>
        match startsWithChars (("null").toList) cs with
        | some r => some (.jnull, r)
        | none =>
        match startsWithChars (("NaN").toList) cs with
        | some r => some (.jnum .pnan, r)
        | none =>
        match startsWithChars (("Infinity").toList) cs with
        | some r => some (.jnum .pinf, r)
        | none =>
        match startsWithChars (("-Infinity").toList) cs with
        | some r => some (.jnum .pninf, r)
        | none =>
        match parseJNumber cs with
        | some p => some (.jnum p.1, p.2)
        | none => none

def parseJArrayItems : ℕ → List Char → List PyJson → Option (List PyJson × List Char)
  | 0, _, _ => none
  | fuel + 1, cs, acc =>
    match parseJValue fuel cs with
    | none => none
    | some (v, r1) =>
      let r2 := skipJsonWs r1
      match r2 with
      | c :: r3 =>
        if c = ',' then parseJArrayItems fuel r3 (acc ++ [v])
        else if c = ']' then some (acc ++ [v], r3)
        else none
      | [] => none

def parseJObjectItems : ℕ → List Char → List (String × PyJson) →
    Option (List (String × PyJson) × List Char)
  | 0, _, _ => none
  | fuel + 1, cs0, acc =>
    let cs := skipJsonWs cs0
    match cs with
    | [] => none
    | c :: r1 =>
      if c = dquoteChar then
        match parseJStringGo (r1.length + 1) r1 [] with
        | none => none
        | some (k, r2) =>
          let r3 := skipJsonWs r2
          match r3 with
          | d :: r4 =>
            if d = ':' then
              match parseJValue fuel r4 with
              | none => none
              | some (v, r5) =>
                let r6 := skipJsonWs r5
                match r6 with
                | e2 :: r7 =>
                  if e2 = ',' then parseJObjectItems fuel r7 (dictInsert acc k v)
                  else if e2 = rbraceChar then some (dictInsert acc k v, r7)
                  else none
                | [] => none
            else none
          | [] => none
      else none

end

/-- `json.loads(s)`: a single JSON document, surrounding whitespace allowed,
trailing data rejected; `none` models `JSONDecodeError`. -/
def jsonParse (s : String) : Option PyJson :=
  let cs := s.toList
  match parseJValue (cs.length + 1) cs with
  | some (v, rest) => if skipJsonWs rest = [] then some v else none
  | none => none

/-! ### Verdict cleanup ladder (`_evaluate_gemini_guides` lines 453-478) -/

def rfindIdx (cs : List Char) (p : Char → Bool) : Option ℕ :=
  match (cs.reverse).findIdx? p with
  | some i => some (cs.length - 1 - i)
  | none => none

/-- The cleanup ladder applied to the raw verdict text: strip a code fence
(optionally tagged `json`), then, if the text does not start with a brace,
slice between the first left brace and the last right brace when both exist
in that order. -/
def cleanupVerdict (raw : String) : String :=
  let c0 := pyStrip raw
  let c1 :=
    if strStartsWith c0 ("```") then
      let a := strDrop c0 3
      let b := if strStartsWith (pyLower a) ("json") then strDrop a 4 else a
      let d := pyStrip b
      if strEndsWith d ("```") then pyStrip (strDropRight d 3) else d
    else c0
  if ¬ strStartsWith c1 ("\x7b") then
    let cs := c1.toList
    match cs.findIdx? (fun c => c == lbraceChar), rfindIdx cs (fun c => c == rbraceChar) with
    | some st, some en => if st < en then String.mk ((cs.drop st).take (en + 1 - st)) else c1
    | _, _ => c1
  else c1

/-- The verdict returned when JSON parsing fails:
`{"recommended_index": 0, "confidence": 0, "reasoning": raw_text}`. -/
def degradedVerdict (raw : String) : PyJson :=
  .jobj [(("recommended_index"), .jnum (.pint 0)), (("confidence"), .jnum (.pint 0)),
         (("reasoning"), .jstr raw)]

/-- `_evaluate_gemini_guides` from the stripped response text `raw_text` on
(lines 453-478): run the cleanup ladder, parse as JSON, degrade gracefully on
failure. -/
def evaluateVerdict (rawText : String) : PyJson :=
  match jsonParse (cleanupVerdict rawText) with
  | some v => v
  | none => degradedVerdict rawText

/-! ### Exceptions raised by `ai.py` -/

inductive PyExc where
  | valueError (msg : String)
  | apiStatus (status : ℕ) (body : String)
  | netFail (msg : String)
  | generic (msg : String)
deriving DecidableEq

/-- `AIManager.default_fallback`. -/
def defaultFallbackText : String :=
  "No reliable hint could be confirmed from the available guides."

/-- The generic error raised when every Gemini model fails without a recorded
exception. -/
def allModelsFailedMsg : String :=
  "All Gemini models failed to provide guidance."

/-- `AIManager.gemini_models`, in priority order. -/
def geminiModels : List String :=
  [("gemini-2.5-flash"), ("gemini-2.5-flash-exp"), ("gemini-2.5-latest"),
   ("gemini-2.5-lite"), ("gemini-2.5-lite-latest"), ("gemini-flash-latest"),
   ("gemini-flash-lite-latest"), ("gemini-2.0-flash"), ("gemini-2.0-flash-exp"),
   ("gemini-2.5-pro")]

/-! ### `_call_gemini_api`: HTTP retry loop (lines 319-353) and response
parsing (lines 355-397)

The network is an oracle mapping each (0-based) attempt number to its outcome:
either a `requests` exception or an HTTP response carrying a status code, a
body string, and — for parsing — the decoded `candidates` array. -/

/-- One `groundingAttributions` entry: the `web.title` / `web.uri` fields
(missing keys modelled as the `.get` default `""`). -/
structure GAttr where
  title : String
  uri : String
deriving DecidableEq

/-- One entry of the response `candidates` array: `content.parts` (with `none`
for an absent `parts` key, which `.get` defaults to `[{}]`; each part's `text`
field is `none` when the key is missing) and the grounding attributions. -/
structure GCand where
  parts : Option (List (Option String))
  attributions : List GAttr
deriving DecidableEq

/-- Outcome of one HTTP POST to the Gemini endpoint. -/
inductive HttpAttempt where
  | netExc (msg : String)
  | resp (status : ℕ) (body : String) (payload : List GCand)

/-- The statuses the retry loop backs off on: `429, 500, 502, 503`. -/
def retriableStatus (s : ℕ) : Prop :=
  s = 429 ∨ s = 500 ∨ s = 502 ∨ s = 503

instance (s : ℕ) : Decidable (retriableStatus s) := by
  unfold retriableStatus; infer_instance

/-- An attempt outcome after which the loop is allowed to retry. -/
def retriableAttempt : HttpAttempt → Bool
  | .netExc _ => true
  | .resp s _ _ => decide (retriableStatus s)

/-- The exception the loop would raise for a failing attempt outcome (`none`
for a 200 response). -/
def attemptFailure : HttpAttempt → Option PyExc
  | .netExc m => some (.netFail (("Failed to reach Gemini API: ") ++ m))
  | .resp s b _ => if s = 200 then none else some (.apiStatus s b)

deriving instance DecidableEq for Except

/-- Trace of the retry loop: number of attempts issued, backoff sleeps (in
seconds, in order), and the final payload or exception. -/
structure GemRetry where
  attempts : ℕ
  sleeps : List ℕ
  outcome : Except PyExc (List GCand)
deriving DecidableEq

/-- The `for attempt in range(3)` retry loop of `_call_gemini_api`.  `i` is the
0-based attempt number; `fuel` keeps the recursion structural (`i + fuel = 3`
throughout, and the fuel-exhausted branch mirrors the unreachable
`response is None` guard of lines 352-353).  A retry sleeps
`2.0 * (attempt + 1)` seconds first (line 337/347). -/
def geminiRetryGo (att : ℕ → HttpAttempt) : ℕ → ℕ → GemRetry
  | i, 0 => ⟨i, [], .error (.generic ("No response from Gemini API."))⟩
  | i, fuel + 1 =>
    match att i with
    | .netExc m =>
      if i < 2 then
        let r := geminiRetryGo att (i + 1) fuel
        ⟨r.attempts, 2 * (i + 1) :: r.sleeps, r.outcome⟩
      else ⟨i + 1, [], .error (.netFail (("Failed to reach Gemini API: ") ++ m))⟩
    | .resp s b p =>
      if s = 200 then ⟨i + 1, [], .ok p⟩
      else if retriableStatus s ∧ i < 2 then
        let r := geminiRetryGo att (i + 1) fuel
        ⟨r.attempts, 2 * (i + 1) :: r.sleeps, r.outcome⟩
      else ⟨i + 1, [], .error (.apiStatus s b)⟩

def geminiRetry (att : ℕ → HttpAttempt) : GemRetry :=
  geminiRetryGo att 0 3

/-- The source-string dedup of lines 372-384: drop attributions with empty or
already-seen URIs, display `"title — uri"` or the bare URI.  The Python `set`
is modelled in insertion order (display order is irrelevant: guides are
sorted before rendering, and distinct URIs give distinct strings). -/
def dedupSourcesGo : List GAttr → List String → List String → List String
  | [], _, acc => acc
  | a :: rest, seen, acc =>
    let title := pyStrip a.title
    let uri := pyStrip a.uri
    if uri = "" ∨ uri ∈ seen then dedupSourcesGo rest seen acc
    else dedupSourcesGo rest (seen ++ [uri])
      (acc ++ [if title ≠ "" then title ++ (" — ") ++ uri else uri])

def dedupSources (attrs : List GAttr) : List String :=
  dedupSourcesGo attrs [] []

/-- Response parsing, lines 357-389: `parts[0]` on an explicit empty `parts`
list raises `IndexError`; candidates whose first part has empty stripped text
are skipped. -/
def parseCandidatesGo : List GCand → List Guide → Except PyExc (List Guide)
  | [], acc => .ok acc
  | c :: rest, acc =>
    match c.parts.getD [none] with
    | [] => .error (.generic ("IndexError: list index out of range"))
    | p0 :: _ =>
      let text := pyStrip (p0.getD (""))
      if text = "" then parseCandidatesGo rest acc
      else parseCandidatesGo rest (acc ++ [⟨text, dedupSources c.attributions⟩])

/-- Python truthiness of the `fallback_text` argument (`None` and `""` are
both falsy). -/
def fallbackTruthy : Option String → Bool
  | some f => f != ""
  | none => false

/-- Lines 391-395: `if not guides and fallback_text: guides.append(...)`. -/
def applyFallback (fallback : Option String) (gs : List Guide) : List Guide :=
  if gs = [] ∧ fallbackTruthy fallback then [⟨fallback.getD (""), []⟩] else gs

/-- `_call_gemini_api` end to end: retry loop, response parsing, fallback
substitution. -/
def callGeminiApiResult (att : ℕ → HttpAttempt) (fallback : Option String) :
    Except PyExc (List Guide) :=
  match (geminiRetry att).outcome with
  | .error e => .error e
  | .ok cands =>
    match parseCandidatesGo cands [] with
    | .error e => .error e
    | .ok gs => .ok (applyFallback fallback gs)

/-! ### `call_ai_api`: Gemini model-fallback sequencing (lines 140-218) and
provider dispatch (lines 220-245)

Each call to `_call_gemini_api` during generation is an oracle from
(model index, attempt index) to its outcome; the refinement and evaluation
stages consume their own single-call oracles. -/

/-- The batch scan of lines 163-175: skip empty texts, remember the first
fallback-sentence guide, collect usable guides, stop at 3. -/
def processBatch : List Guide → List Guide → Option Guide → List Guide × Option Guide
  | [], mg, fb => (mg, fb)
  | g :: rest, mg, fb =>
    let text := pyStrip g.text
    if text = "" then processBatch rest mg fb
    else if text = defaultFallbackText then
      processBatch rest mg (if fb.isNone then some g else fb)
    else
      let mg' := mg ++ [g]
      if 3 ≤ mg'.length then (mg', fb) else processBatch rest mg' fb

/-- Lines 188-192: substitute the single fallback guide when nothing usable
was collected, and cap at `attempts_per_model = 3` guides. -/
def finishModel (mg : List Guide) (fb : Option Guide) : List Guide :=
  let mg := if mg = [] then (match fb with | some g => [g] | none => []) else mg
  mg.take 3

/-- The per-model attempt loop of lines 152-186: up to 3 `_call_gemini_api`
calls, aborting the model on the first exception; returns the model's guide
list (possibly empty) or its exception, together with the number of calls
issued. -/
def runModelGo (batches : ℕ → Except PyExc (List Guide)) :
    ℕ → ℕ → List Guide → Option Guide → Except PyExc (List Guide) × ℕ
  | _, 0, mg, fb => (.ok (finishModel mg fb), 0)
  | attempt, fuel + 1, mg, fb =>
    match batches attempt with
    | .error e => (.error e, 1)
    | .ok batch =>
      let pr := processBatch batch mg fb
      if 3 ≤ pr.1.length then (.ok (finishModel pr.1 pr.2), 1)
      else
        let r := runModelGo batches (attempt + 1) fuel pr.1 pr.2
        (r.1, r.2 + 1)

def runModel (batches : ℕ → Except PyExc (List Guide)) : Except PyExc (List Guide) × ℕ :=
  runModelGo batches 0 3 [] none

/-- The network oracles a single `call_ai_api` invocation consumes. -/
structure AiEnv where
  geminiBatch : ℕ → ℕ → Except PyExc (List Guide)
  refineCall : Except PyExc (List Guide)
  evalCall : Except PyExc (List Guide)
  openaiCall : Except PyExc (Option String)
  claudeCall : Except PyExc (Option String)

/-- The model-fallback sequence over `gemini_models` (lines 147-215, raising
logic of lines 217-218): accept the first model with a non-empty guide list,
remember the last exception, raise it — or the generic error — when every
model fails or yields nothing.  Also counts `_call_gemini_api` invocations. -/
def runGeminiModelsGo (env : AiEnv) : ℕ → ℕ → Option PyExc → Except PyExc (ℕ × List Guide) × ℕ
  | 0, _, lastErr => (.error (lastErr.getD (.generic allModelsFailedMsg)), 0)
  | fuel + 1, i, lastErr =>
    let mr := runModel (env.geminiBatch i)
    match mr.1 with
    | .error e =>
      let r := runGeminiModelsGo env fuel (i + 1) (some e)
      (r.1, mr.2 + r.2)
    | .ok [] =>
      let r := runGeminiModelsGo env fuel (i + 1) lastErr
      (r.1, mr.2 + r.2)
    | .ok (g :: t) => (.ok (i, g :: t), mr.2)

def runGeminiModels (env : AiEnv) : Except PyExc (ℕ × List Guide) × ℕ :=
  runGeminiModelsGo env geminiModels.length 0 none

/-- The exception `raise last_error or Exception(...)` would surface after the
loop: the last model-level error recorded while scanning all models, or the
generic error when none was recorded. -/
def lastErrGo (env : AiEnv) : ℕ → ℕ → PyExc → PyExc
  | 0, _, acc => acc
  | fuel + 1, i, acc =>
    lastErrGo env fuel (i + 1)
      (match (runModel (env.geminiBatch i)).1 with
       | .error e => e
       | .ok _ => acc)

def lastRecordedError (env : AiEnv) : PyExc :=
  lastErrGo env geminiModels.length 0 (.generic allModelsFailedMsg)

/-- Whether model `i` "fails or yields nothing": its run raises or returns an
empty guide list. -/
def modelYieldsNothing (env : AiEnv) (i : ℕ) : Bool :=
  match (runModel (env.geminiBatch i)).1 with
  | .ok (_ :: _) => false
  | _ => true

/-- `_refine_context_gemini` (lines 247-298): one transport call, all
exceptions degrade to `""`, else the first non-empty stripped candidate
text. -/
def firstNonEmptyText : List Guide → String
  | [] => ""
  | g :: rest =>
    let t := pyStrip g.text
    if t = "" then firstNonEmptyText rest else t

def refineContext (env : AiEnv) : String :=
  match env.refineCall with
  | .error _ => ""
  | .ok results => firstNonEmptyText results

/-- The evaluation step as run by `call_ai_api` (lines 196-211) over
`_evaluate_gemini_guides` (lines 399-478): transport failures and empty
responses degrade to the empty dict, otherwise the verdict text is parsed
defensively. -/
def runEvaluation (env : AiEnv) : PyJson :=
  match env.evalCall with
  | .error _ => .jobj []
  | .ok [] => .jobj []
  | .ok (r :: _) =>
    let raw := pyStrip r.text
    if raw = "" then .jobj [] else evaluateVerdict raw

/-- The dict returned by `call_ai_api` (lines 239-245). -/
structure AiResult where
  guides : List Guide
  provider : String
  evaluation : PyJson
  modelUsed : Option String
  refinedContext : String

/-- `AIManager.call_ai_api`: provider dispatch, Gemini fallback sequencing
with refinement and evaluation, single-call ChatGPT/Claude paths (where the
transport substitutes `"Could not generate a hint."` only for an absent text
field, lines 504-510 / 536-541), and the unsupported-provider `ValueError`
(lines 236-237). -/
def callAiApi (provider : String) (env : AiEnv) : Except PyExc AiResult :=
  if provider = ("Gemini") then
    match (runGeminiModels env).1 with
    | .error e => .error e
    | .ok (i, gs) =>
      .ok ⟨gs, provider, runEvaluation env, some (geminiModels.getD i ("")), refineContext env⟩
  else if provider = ("ChatGPT") then
    match env.openaiCall with
    | .error e => .error e
    | .ok content =>
      let cleaned := pyStrip (content.getD ("Could not generate a hint."))
      .ok ⟨if cleaned = "" then [] else [⟨cleaned, []⟩], provider, .jobj [], none, ""⟩
  else if provider = ("Claude") then
    match env.claudeCall with
    | .error e => .error e
    | .ok content =>
      let cleaned := pyStrip (content.getD ("Could not generate a hint."))
      .ok ⟨if cleaned = "" then [] else [⟨cleaned, []⟩], provider, .jobj [], none, ""⟩
  else .error (.valueError ("Please select a supported AI provider (Gemini, ChatGPT, or Claude)."))

/-- The number of provider-transport invocations (`_call_gemini_api`,
`_call_openai_api`, `_call_claude_api`) a `call_ai_api` invocation issues:
the refinement call, the sequencing calls and (on success) the evaluation
call for Gemini; exactly one for ChatGPT/Claude; none for an unsupported
provider. -/
def transportCalls (provider : String) (env : AiEnv) : ℕ :=
  if provider = ("Gemini") then
    1 + (runGeminiModels env).2 +
      (match (runGeminiModels env).1 with
       | .ok _ => 1
       | .error _ => 0)
  else if provider = ("ChatGPT") then 1
  else if provider = ("Claude") then 1
  else 0

/-! ### Concrete fixtures used by witnesses and counterexamples -/

/-- An environment whose transports all succeed trivially. -/
def envAllOk : AiEnv :=
  ⟨fun _ _ => .ok [], .ok [], .ok [], .ok none, .ok none⟩

/-- An environment whose non-grounded transports return a present-but-empty
text field. -/
def envEmptyContent : AiEnv :=
  ⟨fun _ _ => .ok [], .ok [], .ok [], .ok (some ("")), .ok (some (""))⟩

/-- An environment whose non-grounded transports return padded text. -/
def envPaddedContent : AiEnv :=
  ⟨fun _ _ => .ok [], .ok [], .ok [], .ok (some ("  Go north.  ")), .ok (some ("  Go north.  "))⟩

/-- An environment in which every Gemini call raises an HTTP 404. -/
def envAllFail : AiEnv :=
  ⟨fun _ _ => .error (.apiStatus 404 ("not found")), .ok [], .ok [], .ok none, .ok none⟩

/-- An attempt oracle that always raises a network exception. -/
def attNet : ℕ → HttpAttempt := fun _ => .netExc ("boom")

/-- An attempt oracle that immediately returns 200 with no candidates. -/
def attOkEmpty : ℕ → HttpAttempt := fun _ => .resp 200 ("") []

def guidesW3 : List Guide := [⟨("A x"), []⟩, ⟨("a  X"), []⟩, ⟨("B"), []⟩]

def entryW3 : RenderEntry := ⟨1, ("A x"), [], ("66.7%"), 2, [1, 2]⟩

/-- The candidate list of the spec's aggregation example. -/
def castleGuides : List Guide :=
  [⟨("Go to the castle."), []⟩, ⟨("go to the castle"), []⟩, ⟨("Talk to the elder."), []⟩]

/-- The evaluator verdict of the recommended-cluster example. -/
def evalC5 : List (String × PyJson) :=
  [(("recommended_index"), .jnum (.pint 2)), (("confidence"), .jnum (.pint 90)),
   (("reasoning"), .jstr ("Matches known walkthrough"))]

def guidesW5a : Guide := ⟨("Go north."), []⟩
def guidesW5b : Guide := ⟨(" go   NORTH. "), []⟩
def guidesW5c : Guide := ⟨("Talk to the elder."), []⟩

def guidesW7 : List Guide := [⟨("Alpha"), []⟩, ⟨("Beta"), []⟩]

/-- An evaluation whose recommended index does not parse as an integer. -/
def evalW7 : List (String × PyJson) :=
  [(("recommended_index"), .jstr ("second")), (("confidence"), .jnum (.pint 55)),
   (("reasoning"), .jstr ("because"))]

/-! ### Theorems -/

/-- **C9.** For every provider value other than `"Gemini"`, `"ChatGPT"` or
`"Claude"`, `call_ai_api` raises a `ValueError` immediately and issues no
network request. -/
theorem callAiApi_unsupported_provider_validation (provider : String) (env : AiEnv)
    (h1 : provider ≠ "Gemini") (h2 : provider ≠ "ChatGPT") (h3 : provider ≠ "Claude") :
    callAiApi provider env =
      .error (.valueError ("Please select a supported AI provider (Gemini, ChatGPT, or Claude).")) ∧
    transportCalls provider env = 0 := by
  constructor
  · simp [callAiApi, h1, h2, h3]
  · simp [transportCalls, h1, h2, h3]

theorem callAiApi_unsupported_provider_validation_witness :
    callAiApi ("Copilot") envAllOk =
      .error (.valueError ("Please select a supported AI provider (Gemini, ChatGPT, or Claude).")) ∧
    transportCalls ("Copilot") envAllOk = 0 :=
  callAiApi_unsupported_provider_validation ("Copilot") envAllOk
    (by decide) (by decide) (by decide)

/-- **C6.** Whenever the evaluator's response text is not valid JSON after the
cleanup ladder, `_evaluate_gemini_guides` returns the degraded verdict
`{recommended_index: 0, confidence: 0, reasoning: raw_text}` without raising;
in particular `"I think option 2 looks right"` yields exactly that verdict. -/
theorem evaluateVerdict_parse_failure_degrades :
    (∀ raw, jsonParse (cleanupVerdict raw) = none → evaluateVerdict raw = degradedVerdict raw) ∧
    evaluateVerdict ("I think option 2 looks right") =
      degradedVerdict ("I think option 2 looks right") := by
  constructor
  · intro raw h
    unfold evaluateVerdict
    rw [h]
  · rfl

theorem evaluateVerdict_parse_failure_degrades_witness :
    jsonParse (cleanupVerdict ("I think option 2 looks right")) = none ∧
    evaluateVerdict ("I think option 2 looks right") =
      degradedVerdict ("I think option 2 looks right") :=
  ⟨by rfl, evaluateVerdict_parse_failure_degrades.1 ("I think option 2 looks right") (by rfl)⟩

/-- **C4 (counterexample).** On the spec's example candidates the aggregator
produces three clusters, not two: the normalization key keeps punctuation, so
`"Go to the castle."` and `"go to the castle"` do not merge. -/
theorem castle_example_not_two_clusters :
    ((buildAggregated (aggregate castleGuides) (recommendedOriginalIndex none)).1).length ≠ 2 := by
  decide

/-- **C4 (amended).** Given the candidate texts `["Go to the castle.",
"go to the castle", "Talk to the elder."]` and no evaluation, the aggregator
produces exactly 3 display clusters in first-seen order — the trailing period
keeps the first two candidates apart — each with one occurrence and trust
`33.3%`, and no cluster is recommended. -/
theorem castle_example_three_clusters :
    (buildAggregated (aggregate castleGuides) (recommendedOriginalIndex none)).1 =
      [⟨1, ("Go to the castle."), [], ("33.3%"), 1, [1]⟩,
       ⟨2, ("go to the castle"), [], ("33.3%"), 1, [2]⟩,
       ⟨3, ("Talk to the elder."), [], ("33.3%"), 1, [3]⟩] ∧
    (buildAggregated (aggregate castleGuides) (recommendedOriginalIndex none)).2 = 0 := by
  exact ⟨by decide, by decide⟩

/-- **C8 (counterexample).** A successful ChatGPT (or Claude) response whose
text field is present but empty yields an empty guides list — not a single
placeholder candidate — because the transport substitutes the placeholder only
when the field is missing. -/
theorem chatgpt_empty_text_yields_no_candidate :
    callAiApi ("ChatGPT") envEmptyContent = .ok ⟨[], ("ChatGPT"), .jobj [], none, ("")⟩ ∧
    ¬ (∃ r, callAiApi ("ChatGPT") envEmptyContent = .ok r ∧ r.guides.length = 1) := by
  refine ⟨by rfl, ?_⟩
  rintro ⟨r, hr, hl⟩
  rw [(by rfl : callAiApi ("ChatGPT") envEmptyContent = .ok ⟨[], ("ChatGPT"), .jobj [], none, ("")⟩)] at hr
  cases hr
  simp at hl

/-- **C8 (amended).** For the non-grounded providers (ChatGPT and Claude),
`call_ai_api` performs exactly one transport call; a response whose text field
is missing is substituted with the static `"Could not generate a hint."`
placeholder and yields exactly one candidate, a response with non-blank text
yields that text (stripped) as the single candidate, and a response whose text
strips to empty yields an empty guides list. -/
theorem nongrounded_single_call_behavior (env : AiEnv) :
    transportCalls ("ChatGPT") env = 1 ∧ transportCalls ("Claude") env = 1 ∧
    (env.openaiCall = .ok none →
      callAiApi ("ChatGPT") env =
        .ok ⟨[⟨("Could not generate a hint."), []⟩], ("ChatGPT"), .jobj [], none, ("")⟩) ∧
    (∀ s, env.openaiCall = .ok (some s) → pyStrip s ≠ "" →
      callAiApi ("ChatGPT") env = .ok ⟨[⟨pyStrip s, []⟩], ("ChatGPT"), .jobj [], none, ("")⟩) ∧
    (∀ s, env.openaiCall = .ok (some s) → pyStrip s = "" →
      callAiApi ("ChatGPT") env = .ok ⟨[], ("ChatGPT"), .jobj [], none, ("")⟩) ∧
    (env.claudeCall = .ok none →
      callAiApi ("Claude") env =
        .ok ⟨[⟨("Could not generate a hint."), []⟩], ("Claude"), .jobj [], none, ("")⟩) ∧
    (∀ s, env.claudeCall = .ok (some s) → pyStrip s ≠ "" →
      callAiApi ("Claude") env = .ok ⟨[⟨pyStrip s, []⟩], ("Claude"), .jobj [], none, ("")⟩) ∧
    (∀ s, env.claudeCall = .ok (some s) → pyStrip s = "" →
      callAiApi ("Claude") env = .ok ⟨[], ("Claude"), .jobj [], none, ("")⟩) := by
  refine ⟨by simp [transportCalls], by simp [transportCalls], ?_, ?_, ?_, ?_, ?_, ?_⟩
  · intro h
    simp [callAiApi, h]
    decide
  · intro s h hs
    simp [callAiApi, h, hs]
  · intro s h hs
    simp [callAiApi, h, hs]
  · intro h
    simp [callAiApi, h]
    decide
  · intro s h hs
    simp [callAiApi, h, hs]
  · intro s h hs
    simp [callAiApi, h, hs]

theorem nongrounded_single_call_behavior_witness :
    transportCalls ("ChatGPT") envPaddedContent = 1 ∧
    callAiApi ("ChatGPT") envPaddedContent =
      .ok ⟨[⟨pyStrip ("  Go north.  "), []⟩], ("ChatGPT"), .jobj [], none, ("")⟩ ∧
    callAiApi ("Claude") envEmptyContent = .ok ⟨[], ("Claude"), .jobj [], none, ("")⟩ :=
  ⟨(nongrounded_single_call_behavior envPaddedContent).1,
   (nongrounded_single_call_behavior envPaddedContent).2.2.2.1 ("  Go north.  ")
     (by rfl) (by decide),
   (nongrounded_single_call_behavior envEmptyContent).2.2.2.2.2.2.2 ("") (by rfl) (by decide)⟩

/-- **C10 (counterexample).** `_call_gemini_api` called with the non-`None`
fallback text `""` can complete without raising and return an empty list: the
guard `if not guides and fallback_text` treats the empty string as falsy. -/
theorem callGeminiApi_empty_fallback_empty_result :
    callGeminiApiResult attOkEmpty (some ("")) = .ok [] ∧
    (some ("") : Option String) ≠ none := by
  exact ⟨by rfl, by simp⟩

/-- **C10 (amended).** For every call of `_call_gemini_api` with a non-empty
(hence truthy) fallback text that completes without raising, the returned list
is non-empty; and when the parsed HTTP response yields no candidate with
non-empty text, the result is exactly one candidate carrying the fallback text
and no sources. -/
theorem callGeminiApi_nonempty_fallback_nonempty_result
    (att : ℕ → HttpAttempt) (f : String) (hf : f ≠ "") (gs : List Guide)
    (h : callGeminiApiResult att (some f) = .ok gs) :
    gs ≠ [] ∧
    (∀ cands, (geminiRetry att).outcome = .ok cands →
      parseCandidatesGo cands [] = .ok [] → gs = [⟨f, []⟩]) := by
  unfold callGeminiApiResult at h
  rcases ho : (geminiRetry att).outcome with e | cands0
  · rw [ho] at h
    exact absurd h (by simp)
  · rw [ho] at h
    dsimp only at h
    rcases hp : parseCandidatesGo cands0 [] with e | gs0
    · rw [hp] at h
      exact absurd h (by simp)
    · rw [hp] at h
      dsimp only at h
      have hgs : applyFallback (some f) gs0 = gs := by
        injection h
      constructor
      · by_cases hg : gs0 = []
        · subst hg
          rw [← hgs]
          simp [applyFallback, fallbackTruthy, hf]
        · rw [← hgs]
          simp [applyFallback, hg]
      · intro cands hc hpc
        injection hc with hc
        subst hc
        rw [hp] at hpc
        injection hpc with hpc
        subst hpc
        rw [← hgs]
        simp [applyFallback, fallbackTruthy, hf]

theorem callGeminiApi_nonempty_fallback_nonempty_result_witness :
    defaultFallbackText ≠ "" ∧
    ([(⟨defaultFallbackText, []⟩ : Guide)] : List Guide) ≠ [] ∧
    [(⟨defaultFallbackText, []⟩ : Guide)] = [⟨defaultFallbackText, []⟩] :=
  ⟨by decide,
   (callGeminiApi_nonempty_fallback_nonempty_result attOkEmpty defaultFallbackText
      (by decide) [⟨defaultFallbackText, []⟩] (by rfl)).1,
   (callGeminiApi_nonempty_fallback_nonempty_result attOkEmpty defaultFallbackText
      (by decide) [⟨defaultFallbackText, []⟩] (by rfl)).2 [] (by rfl) (by rfl)⟩

/-- A successful model-fallback sequence always carries a non-empty guide
list: the sequencer only accepts a model that produced one. -/
theorem runGeminiModelsGo_ok_nonempty (env : AiEnv) :
    ∀ fuel i le m gs, (runGeminiModelsGo env fuel i le).1 = .ok (m, gs) → gs ≠ [] := by
  intro fuel
  induction fuel with
  | zero =>
    intro i le m gs h
    simp [runGeminiModelsGo] at h
  | succ n ih =>
    intro i le m gs h
    simp only [runGeminiModelsGo] at h
    split at h
    · exact ih _ _ _ _ h
    · exact ih _ _ _ _ h
    · simp only [Except.ok.injEq, Prod.mk.injEq] at h
      rw [← h.2]
      simp

/-- When every model in the scanned range fails or yields nothing, the
sequence raises the last recorded error (defaulting to the generic one). -/
theorem runGeminiModelsGo_all_fail (env : AiEnv) :
    ∀ fuel i le, (∀ j, i ≤ j → j < i + fuel → modelYieldsNothing env j = true) →
      (runGeminiModelsGo env fuel i le).1 =
        .error (lastErrGo env fuel i (le.getD (.generic allModelsFailedMsg))) := by
  intro fuel
  induction fuel with
  | zero =>
    intro i le _
    simp [runGeminiModelsGo, lastErrGo]
  | succ n ih =>
    intro i le h
    have hi : modelYieldsNothing env i = true := h i (le_refl i) (by omega)
    simp only [runGeminiModelsGo, lastErrGo]
    split
    case _ e heq =>
      rw [heq]
      have := ih (i + 1) (some e) (fun j hj1 hj2 => h j (by omega) (by omega))
      simpa using this
    case _ heq =>
      rw [heq]
      have := ih (i + 1) le (fun j hj1 hj2 => h j (by omega) (by omega))
      simpa using this
    case _ g t heq =>
      exfalso
      simp [modelYieldsNothing, heq] at hi

/-- When no model raised, the recorded error stays at its default. -/
theorem lastErrGo_all_ok (env : AiEnv) :
    ∀ fuel i acc, (∀ j, i ≤ j → j < i + fuel → ∀ e, (runModel (env.geminiBatch j)).1 ≠ .error e) →
      lastErrGo env fuel i acc = acc := by
  intro fuel
  induction fuel with
  | zero => intro i acc _; simp [lastErrGo]
  | succ n ih =>
    intro i acc h
    simp only [lastErrGo]
    rcases heq : (runModel (env.geminiBatch i)).1 with e | gl
    · exact absurd heq (h i (le_refl i) (by omega) e)
    · dsimp only
      exact ih (i + 1) acc (fun j hj1 hj2 => h j (by omega) (by omega))

/-- **C1.** For every Gemini-provider request, `call_ai_api` either returns a
result whose guides list is non-empty or raises: when every model in the
ordered list fails or yields nothing it raises the last recorded error —
or the generic `"All Gemini models failed to provide guidance."` error when
no error was recorded — and it never returns successfully with an empty
candidate list. -/
theorem callAiApi_gemini_nonempty_or_raises (env : AiEnv) :
    (∀ r, callAiApi ("Gemini") env = .ok r → r.guides ≠ []) ∧
    ((∀ i, i < geminiModels.length → modelYieldsNothing env i = true) →
      callAiApi ("Gemini") env = .error (lastRecordedError env)) ∧
    ((∀ i, i < geminiModels.length → (runModel (env.geminiBatch i)).1 = .ok []) →
      callAiApi ("Gemini") env = .error (.generic allModelsFailedMsg)) := by
  refine ⟨?_, ?_, ?_⟩
  · intro r h
    simp only [callAiApi, if_pos rfl, runGeminiModels] at h
    rcases hs : (runGeminiModelsGo env geminiModels.length 0 none).1 with e | p
    · rw [hs] at h
      exact absurd h (by simp)
    · rw [hs] at h
      dsimp only at h
      injection h with h
      rw [← h]
      exact runGeminiModelsGo_ok_nonempty env _ _ _ _ _ hs
  · intro h
    have hall := runGeminiModelsGo_all_fail env geminiModels.length 0 none
      (fun j hj1 hj2 => h j (by omega))
    simp only [callAiApi, runGeminiModels, lastRecordedError]
    rw [hall]
    simp
  · intro h
    have hall := runGeminiModelsGo_all_fail env geminiModels.length 0 none
      (fun j hj1 hj2 => by
        have := h j (by omega)
        simp [modelYieldsNothing, this])
    simp only [callAiApi, runGeminiModels]
    rw [hall]
    have hok := lastErrGo_all_ok env geminiModels.length 0 (.generic allModelsFailedMsg)
      (fun j hj1 hj2 e he => by
        have := h j (by omega)
        rw [this] at he
        exact Except.noConfusion he)
    simp [hok]

theorem callAiApi_gemini_nonempty_or_raises_witness :
    (∀ i, i < geminiModels.length → modelYieldsNothing envAllFail i = true) ∧
    callAiApi ("Gemini") envAllFail = .error (lastRecordedError envAllFail) :=
  ⟨by decide, (callAiApi_gemini_nonempty_or_raises envAllFail).2.1 (by decide)⟩

theorem listMapExt {α β : Type} (f g : α → β) (h : ∀ a, f a = g a) :
    ∀ l : List α, l.map f = l.map g := by
  intro l
  induction l with
  | nil => rfl
  | cons a t ih => simp [h a, ih]

/-- The retry loop issues at most `i + fuel` attempts. -/
theorem geminiRetryGo_attempts_le (att : ℕ → HttpAttempt) :
    ∀ fuel i, (geminiRetryGo att i fuel).attempts ≤ i + fuel := by
  intro fuel
  induction fuel with
  | zero => intro i; simp [geminiRetryGo]
  | succ n ih =>
    intro i
    rcases ha : att i with m | ⟨s, b, p⟩ <;> simp only [geminiRetryGo, ha]
    · split
      · have := ih (i + 1)
        dsimp only
        omega
      · dsimp only
        omega
    · split
      · dsimp only
        omega
      · split
        · have := ih (i + 1)
          dsimp only
          omega
        · dsimp only
          omega

/-- With fuel left, the retry loop issues at least one further attempt. -/
theorem geminiRetryGo_attempts_gt (att : ℕ → HttpAttempt) :
    ∀ fuel i, 0 < fuel → i < (geminiRetryGo att i fuel).attempts := by
  intro fuel
  induction fuel with
  | zero => intro i h; omega
  | succ n ih =>
    intro i _
    rcases ha : att i with m | ⟨s, b, p⟩ <;> simp only [geminiRetryGo, ha]
    · split
      · rcases Nat.eq_zero_or_pos n with hn | hn
        · subst hn
          simp [geminiRetryGo]
        · have := ih (i + 1) hn
          dsimp only
          omega
      · dsimp only
        omega
    · split
      · dsimp only
        omega
      · split
        · rcases Nat.eq_zero_or_pos n with hn | hn
          · subst hn
            simp [geminiRetryGo]
          · have := ih (i + 1) hn
            dsimp only
            omega
        · dsimp only
          omega

/-- Every attempt that was followed by another one had a retriable outcome:
a network exception or a status in `{429, 500, 502, 503}`. -/
theorem geminiRetryGo_retry_retriable (att : ℕ → HttpAttempt) :
    ∀ fuel i j, i ≤ j → j + 1 < (geminiRetryGo att i fuel).attempts →
      retriableAttempt (att j) = true := by
  intro fuel
  induction fuel with
  | zero =>
    intro i j hij hlt
    simp [geminiRetryGo] at hlt
    exact absurd hlt (by omega)
  | succ n ih =>
    intro i j hij hlt
    rcases ha : att i with m | ⟨s', b', p'⟩ <;> simp only [geminiRetryGo, ha] at hlt
    · by_cases hi : i < 2
      · rw [if_pos hi] at hlt
        dsimp only at hlt
        rcases eq_or_lt_of_le hij with rfl | hij'
        · simp [retriableAttempt, ha]
        · exact ih (i + 1) j (by omega) hlt
      · rw [if_neg hi] at hlt
        dsimp only at hlt
        exact absurd hlt (by omega)
    · by_cases h200 : s' = 200
      · rw [if_pos h200] at hlt
        dsimp only at hlt
        exact absurd hlt (by omega)
      · rw [if_neg h200] at hlt
        by_cases hc : retriableStatus s' ∧ i < 2
        · rw [if_pos hc] at hlt
          dsimp only at hlt
          rcases eq_or_lt_of_le hij with rfl | hij'
          · simp only [retriableAttempt, ha]
            exact decide_eq_true hc.1
          · exact ih (i + 1) j (by omega) hlt
        · rw [if_neg hc] at hlt
          dsimp only at hlt
          exact absurd hlt (by omega)

/-- Sleeps recorded by the loop: `2 * attemptNumber` seconds before each
retried attempt, in order. -/
theorem geminiRetryGo_sleeps (att : ℕ → HttpAttempt) :
    ∀ fuel i, i + fuel = 3 →
      (geminiRetryGo att i fuel).sleeps =
        (List.range ((geminiRetryGo att i fuel).attempts - 1 - i)).map (fun k => 2 * (i + k + 1)) := by
  intro fuel
  induction fuel with
  | zero =>
    intro i _
    simp [geminiRetryGo]
  | succ n ih =>
    intro i hif
    rcases ha : att i with m | ⟨s', b', p'⟩ <;> simp only [geminiRetryGo, ha]
    · by_cases hi : i < 2
      · rw [if_pos hi]
        have hn : 0 < n := by omega
        have hgt := geminiRetryGo_attempts_gt att n (i + 1) hn
        have hr := ih (i + 1) (by omega)
        dsimp only
        rw [hr]
        have hm : (geminiRetryGo att (i + 1) n).attempts - 1 - i =
            ((geminiRetryGo att (i + 1) n).attempts - 1 - (i + 1)) + 1 := by omega
        rw [hm, List.range_succ_eq_map, List.map_cons, List.map_map]
        refine congrArg₂ _ rfl ?_
        exact (listMapExt _ _ (fun a => by simp only [Function.comp]; omega) _).symm
      · rw [if_neg hi]
        simp
    · by_cases h200 : s' = 200
      · rw [if_pos h200]
        simp
      · rw [if_neg h200]
        by_cases hc : retriableStatus s' ∧ i < 2
        · rw [if_pos hc]
          have hn : 0 < n := by omega
          have hgt := geminiRetryGo_attempts_gt att n (i + 1) hn
          have hr := ih (i + 1) (by omega)
          dsimp only
          rw [hr]
          have hm : (geminiRetryGo att (i + 1) n).attempts - 1 - i =
              ((geminiRetryGo att (i + 1) n).attempts - 1 - (i + 1)) + 1 := by omega
          rw [hm, List.range_succ_eq_map, List.map_cons, List.map_map]
          refine congrArg₂ _ rfl ?_
          exact (listMapExt _ _ (fun a => by simp only [Function.comp]; omega) _).symm
        · rw [if_neg hc]
          simp

/-- A non-retriable, non-success response stops the loop at once with the
status error. -/
theorem geminiRetryGo_immediate_raise (att : ℕ → HttpAttempt) :
    ∀ fuel i j s b p, i ≤ j → j < (geminiRetryGo att i fuel).attempts →
      att j = .resp s b p → s ≠ 200 → ¬ retriableStatus s →
      (geminiRetryGo att i fuel).attempts = j + 1 ∧
      (geminiRetryGo att i fuel).outcome = .error (.apiStatus s b) := by
  intro fuel
  induction fuel with
  | zero =>
    intro i j s b p hij hlt _ _ _
    simp [geminiRetryGo] at hlt
    exact absurd hlt (by omega)
  | succ n ih =>
    intro i j s b p hij hlt haj hs hr
    rcases ha : att i with m | ⟨s', b', p'⟩ <;> simp only [geminiRetryGo, ha] at hlt ⊢
    · by_cases hi : i < 2
      · rw [if_pos hi] at hlt ⊢
        dsimp only at hlt ⊢
        rcases eq_or_lt_of_le hij with rfl | hij'
        · rw [ha] at haj
          exact absurd haj (by simp)
        · exact ih (i + 1) j s b p (by omega) hlt haj hs hr
      · rw [if_neg hi] at hlt ⊢
        dsimp only at hlt ⊢
        have hji : j = i := by omega
        subst hji
        rw [ha] at haj
        exact absurd haj (by simp)
    · by_cases h200 : s' = 200
      · rw [if_pos h200] at hlt ⊢
        dsimp only at hlt ⊢
        have hji : j = i := by omega
        subst hji
        rw [ha] at haj
        injection haj with h1 h2 h3
        exact absurd (by omega : s = 200) hs
      · rw [if_neg h200] at hlt ⊢
        by_cases hc : retriableStatus s' ∧ i < 2
        · rw [if_pos hc] at hlt ⊢
          dsimp only at hlt ⊢
          rcases eq_or_lt_of_le hij with rfl | hij'
          · rw [ha] at haj
            injection haj with h1 h2 h3
            subst h1
            exact absurd hc.1 hr
          · exact ih (i + 1) j s b p (by omega) hlt haj hs hr
        · rw [if_neg hc] at hlt ⊢
          dsimp only at hlt ⊢
          have hji : j = i := by omega
          subst hji
          rw [ha] at haj
          injection haj with h1 h2 h3
          subst h1
          subst h2
          exact ⟨rfl, rfl⟩

/-- When all three attempts were used and the last one failed, the loop
raises the exception of that last attempt. -/
theorem geminiRetryGo_exhaust (att : ℕ → HttpAttempt) :
    ∀ fuel i, i + fuel = 3 → 1 ≤ fuel →
      (geminiRetryGo att i fuel).attempts = 3 →
      ∀ e, attemptFailure (att 2) = some e →
      (geminiRetryGo att i fuel).outcome = .error e := by
  intro fuel
  induction fuel with
  | zero =>
    intro i _ h
    exact absurd h (by omega)
  | succ n ih =>
    intro i hif _ hatt e hfe
    rcases ha : att i with m | ⟨s', b', p'⟩ <;> simp only [geminiRetryGo, ha] at hatt ⊢
    · by_cases hi : i < 2
      · rw [if_pos hi] at hatt ⊢
        dsimp only at hatt ⊢
        exact ih (i + 1) (by omega) (by omega) hatt e hfe
      · rw [if_neg hi] at hatt ⊢
        dsimp only at hatt ⊢
        have hi2 : i = 2 := by omega
        subst hi2
        rw [ha] at hfe
        simp only [attemptFailure] at hfe
        injection hfe with hfe
        rw [← hfe]
    · by_cases h200 : s' = 200
      · rw [if_pos h200] at hatt ⊢
        dsimp only at hatt ⊢
        have hi2 : i = 2 := by omega
        subst hi2
        rw [ha] at hfe
        simp only [attemptFailure, if_pos h200] at hfe
        exact absurd hfe (by simp)
      · rw [if_neg h200] at hatt ⊢
        by_cases hc : retriableStatus s' ∧ i < 2
        · rw [if_pos hc] at hatt ⊢
          dsimp only at hatt ⊢
          exact ih (i + 1) (by omega) (by omega) hatt e hfe
        · rw [if_neg hc] at hatt ⊢
          dsimp only at hatt ⊢
          have hi2 : i = 2 := by omega
          subst hi2
          rw [ha] at hfe
          simp only [attemptFailure, if_neg h200] at hfe
          injection hfe with hfe
          rw [← hfe]

/-- **C2.** For every Gemini transport call: at most 3 HTTP attempts are made;
a retry happens only after a network exception or an HTTP status in
`{429, 500, 502, 503}`, with a sleep of `2 * attemptNumber` seconds before the
next attempt; any other non-success status raises immediately without a
retry; and when the loop ends on a failing final attempt it raises the
exception wrapping that last cause. -/
theorem callGeminiApi_retry_policy (att : ℕ → HttpAttempt) :
    (geminiRetry att).attempts ≤ 3 ∧
    (∀ j, j + 1 < (geminiRetry att).attempts → retriableAttempt (att j) = true) ∧
    (geminiRetry att).sleeps =
      (List.range ((geminiRetry att).attempts - 1)).map (fun k => 2 * (k + 1)) ∧
    (∀ j s b p, j < (geminiRetry att).attempts → att j = .resp s b p → s ≠ 200 →
      ¬ retriableStatus s →
      (geminiRetry att).attempts = j + 1 ∧
      (geminiRetry att).outcome = .error (.apiStatus s b)) ∧
    (∀ e, (geminiRetry att).attempts = 3 → attemptFailure (att 2) = some e →
      (geminiRetry att).outcome = .error e) := by
  refine ⟨?_, ?_, ?_, ?_, ?_⟩
  · have h := geminiRetryGo_attempts_le att 3 0
    simpa [geminiRetry] using h
  · intro j hj
    exact geminiRetryGo_retry_retriable att 3 0 j (Nat.zero_le j) hj
  · have h := geminiRetryGo_sleeps att 3 0 rfl
    simp only [geminiRetry]
    rw [h]
    exact listMapExt _ _ (fun a => by omega) _
  · intro j s b p hlt haj hs hr
    exact geminiRetryGo_immediate_raise att 3 0 j s b p (Nat.zero_le j) hlt haj hs hr
  · intro e hatt hfe
    exact geminiRetryGo_exhaust att 3 0 rfl (by omega) hatt e hfe

theorem callGeminiApi_retry_policy_witness :
    retriableAttempt (attNet 0) = true ∧
    (geminiRetry attNet).sleeps = [2, 4] ∧
    (geminiRetry attNet).outcome = .error (.netFail ("Failed to reach Gemini API: boom")) :=
  ⟨(callGeminiApi_retry_policy attNet).2.1 0 (by decide),
   by decide,
   (callGeminiApi_retry_policy attNet).2.2.2.2
     (.netFail ("Failed to reach Gemini API: boom")) (by decide) (by rfl)⟩

theorem usableCount_cons (g : Guide) (rest : List Guide) :
    usableCount (g :: rest) = (if pyStrip g.text = "" then 0 else 1) + usableCount rest := by
  by_cases h : pyStrip g.text = "" <;> simp [usableCount, List.filter_cons, h]
  omega

/-- An empty-text candidate is skipped by the aggregation loop. -/
theorem aggregateGo_cons_empty (g : Guide) (gs : List Guide) (idx : ℕ)
    (assoc : List (String × AggEntry)) (total : ℕ) (h : pyStrip g.text = "") :
    aggregateGo (g :: gs) idx assoc total = aggregateGo gs (idx + 1) assoc total := by
  simp [aggregateGo, h]

/-- A non-empty-text candidate inserts or updates its cluster and bumps the
total. -/
theorem aggregateGo_cons_usable (g : Guide) (gs : List Guide) (idx : ℕ)
    (assoc : List (String × AggEntry)) (total : ℕ) (h : pyStrip g.text ≠ "") :
    aggregateGo (g :: gs) idx assoc total =
      aggregateGo gs (idx + 1)
        (updateEntry
          (if hasKey assoc (pyNorm (pyStrip g.text)) then assoc
           else assoc ++ [(pyNorm (pyStrip g.text), ⟨pyStrip g.text, [], 0, []⟩)])
          (pyNorm (pyStrip g.text))
          (fun e => ⟨e.text, addSources e.sources g.sources, e.count + 1, e.indices ++ [idx]⟩))
        (total + 1) := by
  simp [aggregateGo, h]

/-- The aggregation loop's `total` counts exactly the candidates with
non-empty stripped text. -/
theorem aggregateGo_total (gs : List Guide) :
    ∀ idx assoc total, (aggregateGo gs idx assoc total).2 = total + usableCount gs := by
  induction gs with
  | nil =>
    intro idx assoc total
    simp [aggregateGo, usableCount]
  | cons g rest ih =>
    intro idx assoc total
    by_cases h : pyStrip g.text = ""
    · rw [aggregateGo_cons_empty _ _ _ _ _ h, ih, usableCount_cons, if_pos h]
      omega
    · rw [aggregateGo_cons_usable _ _ _ _ _ h, ih, usableCount_cons, if_neg h]
      omega

theorem aggregateGo_all_empty (gs : List Guide) :
    ∀ idx assoc total, (∀ g ∈ gs, pyStrip g.text = "") →
      aggregateGo gs idx assoc total = (assoc, total) := by
  induction gs with
  | nil => intro idx assoc total _; rfl
  | cons g rest ih =>
    intro idx assoc total h
    rw [aggregateGo_cons_empty _ _ _ _ _ (h g (by simp))]
    exact ih _ _ _ (fun g' hg' => h g' (by simp [hg']))

/-- Every decorated cluster's trust display is computed from its occurrence
count and the given total. -/
theorem buildGo_trust (total : ℕ) (recO : ℤ) :
    ∀ l dIdx recAgg, ∀ e ∈ (buildGo total recO l dIdx recAgg).1,
      e.trust = trustDisplay (trustValue e.count total) := by
  intro l
  induction l with
  | nil =>
    intro dIdx recAgg e he
    simp [buildGo] at he
  | cons kv rest ih =>
    intro dIdx recAgg e he
    simp only [buildGo] at he
    rcases List.mem_cons.mp he with rfl | hmem
    · rfl
    · exact ih _ _ _ hmem

/-- With no usable candidates the report has no clusters at all (and no
division is attempted). -/
theorem aggregate_total_zero_empty (guides : List Guide) (recO : ℤ)
    (h : usableCount guides = 0) :
    (buildAggregated (aggregate guides) recO).1 = [] := by
  have hnil : guides.filter (fun g => pyStrip g.text ≠ "") = [] :=
    List.length_eq_zero.mp h
  have hempty : ∀ g ∈ guides, pyStrip g.text = "" := by
    intro g hg
    by_contra hne
    have hmem : g ∈ guides.filter (fun g => pyStrip g.text ≠ "") :=
      List.mem_filter.mpr ⟨hg, by simpa using hne⟩
    rw [hnil] at hmem
    exact absurd hmem (by simp)
  have hagg := aggregateGo_all_empty guides 1 [] 0 hempty
  simp [buildAggregated, aggregate, hagg, buildGo]

/-- **C3.** Each cluster's trust equals its occurrence count divided by the
total number of non-empty-text candidates, times 100, displayed with one
decimal place unless the value is an exact integer (then without a decimal);
when the total is zero the trust value is defined as 100 — and no clusters
exist, so no division by zero occurs (the embedding is total). -/
theorem formatGuideOutput_trust_formula (guides : List Guide) (recO : ℤ) :
    (aggregate guides).2 = usableCount guides ∧
    (∀ e ∈ (buildAggregated (aggregate guides) recO).1,
      e.trust = trustDisplay (trustValue e.count (usableCount guides))) ∧
    (∀ c, trustValue c 0 = ⟨100, 1⟩) ∧
    (∀ q, prIsInt q = true → trustDisplay q = intRepr (prFloor q) ++ ("%")) ∧
    (∀ q, prIsInt q = false → trustDisplay q = oneDecimalRepr q ++ ("%")) ∧
    (usableCount guides = 0 → (buildAggregated (aggregate guides) recO).1 = []) := by
  have htot : (aggregate guides).2 = usableCount guides := by
    simpa [aggregate] using aggregateGo_total guides 1 [] 0
  refine ⟨htot, ?_, ?_, ?_, ?_, aggregate_total_zero_empty guides recO⟩
  · intro e he
    have hb := buildGo_trust (aggregate guides).2 recO (aggregate guides).1 1 0 e he
    rwa [htot] at hb
  · intro c
    rfl
  · intro q hq
    simp [trustDisplay, hq]
  · intro q hq
    simp [trustDisplay, hq]

theorem formatGuideOutput_trust_formula_witness :
    (aggregate guidesW3).2 = usableCount guidesW3 ∧
    entryW3.trust = trustDisplay (trustValue entryW3.count (usableCount guidesW3)) :=
  ⟨(formatGuideOutput_trust_formula guidesW3 0).1,
   (formatGuideOutput_trust_formula guidesW3 0).2.1 entryW3 (by decide)⟩

/-- Membership in an updated association list: each element is an original
element or an updated original element. -/
theorem updateEntry_mem (assoc : List (String × AggEntry)) (key : String)
    (f : AggEntry → AggEntry) (kv : String × AggEntry) (h : kv ∈ updateEntry assoc key f) :
    kv ∈ assoc ∨ ∃ kv' ∈ assoc, kv = (kv'.1, f kv'.2) := by
  simp only [updateEntry, List.mem_map] at h
  obtain ⟨kv', hkv', heq⟩ := h
  by_cases hk : kv'.1 = key
  · right
    exact ⟨kv', hkv', by rw [← heq, if_pos hk]⟩
  · left
    rw [← heq, if_neg hk]
    exact hkv'

/-- Every index recorded by the aggregation loop is a valid 1-based position
into the processed prefix. -/
theorem aggregateGo_indices_bound (gs : List Guide) :
    ∀ idx assoc total,
      (∀ kv ∈ assoc, ∀ j ∈ kv.2.indices, 1 ≤ j ∧ j < idx) → 1 ≤ idx →
      ∀ kv ∈ (aggregateGo gs idx assoc total).1, ∀ j ∈ kv.2.indices,
        1 ≤ j ∧ j < idx + gs.length := by
  induction gs with
  | nil =>
    intro idx assoc total hinv hidx kv hkv j hj
    simp only [aggregateGo] at hkv
    have hb := hinv kv hkv j hj
    simp only [List.length_nil]
    omega
  | cons g rest ih =>
    intro idx assoc total hinv hidx
    by_cases h : pyStrip g.text = ""
    · rw [aggregateGo_cons_empty _ _ _ _ _ h]
      intro kv hkv j hj
      have hb := ih (idx + 1) assoc total
        (fun kv hk j hj => by have := hinv kv hk j hj; omega) (by omega) kv hkv j hj
      simp only [List.length_cons]
      omega
    · rw [aggregateGo_cons_usable _ _ _ _ _ h]
      have hbase : ∀ kv ∈ (if hasKey assoc (pyNorm (pyStrip g.text)) then assoc
          else assoc ++ [(pyNorm (pyStrip g.text), ⟨pyStrip g.text, [], 0, []⟩)]),
          ∀ j ∈ kv.2.indices, 1 ≤ j ∧ j < idx := by
        intro kv hkv j hj
        split at hkv
        · exact hinv kv hkv j hj
        · rcases List.mem_append.mp hkv with hkv | hkv
          · exact hinv kv hkv j hj
          · simp only [List.mem_singleton] at hkv
            subst hkv
            simp at hj
      have hupd : ∀ kv ∈ updateEntry
          (if hasKey assoc (pyNorm (pyStrip g.text)) then assoc
           else assoc ++ [(pyNorm (pyStrip g.text), ⟨pyStrip g.text, [], 0, []⟩)])
          (pyNorm (pyStrip g.text))
          (fun e => ⟨e.text, addSources e.sources g.sources, e.count + 1, e.indices ++ [idx]⟩),
          ∀ j ∈ kv.2.indices, 1 ≤ j ∧ j < idx + 1 := by
        intro kv hkv j hj
        rcases updateEntry_mem _ _ _ kv hkv with hmem | ⟨kv', hkv', heq⟩
        · have := hbase kv hmem j hj
          omega
        · subst heq
          simp only [List.mem_append, List.mem_singleton] at hj
          rcases hj with hj | rfl
          · have := hbase kv' hkv' j hj
            omega
          · omega
      intro kv hkv j hj
      have hb := ih (idx + 1) _ (total + 1) hupd (by omega) kv hkv j hj
      simp only [List.length_cons]
      omega

theorem aggregate_indices_bound (guides : List Guide) :
    ∀ kv ∈ (aggregate guides).1, ∀ j ∈ kv.2.indices, 1 ≤ j ∧ j ≤ guides.length := by
  intro kv hkv j hj
  have hb := aggregateGo_indices_bound guides 1 [] 0 (by simp) (by omega) kv hkv j hj
  omega

/-- The decorated entry list does not depend on the recommendation state. -/
theorem buildGo_fst_indep (total : ℕ) :
    ∀ l recO recO' dIdx a a',
      (buildGo total recO l dIdx a).1 = (buildGo total recO' l dIdx a').1 := by
  intro l
  induction l with
  | nil =>
    intro recO recO' dIdx a a'
    rfl
  | cons kv rest ih =>
    intro recO recO' dIdx a a'
    simp only [buildGo]
    exact congrArg _ (ih recO recO' (dIdx + 1) _ _)

/-- When the recommended original index matches no cluster, the recommendation
accumulator is left unchanged. -/
theorem buildGo_snd_nomatch (total : ℕ) (recO : ℤ) :
    ∀ l dIdx a, (∀ kv ∈ l, ¬ (recO ≠ 0 ∧ recO ∈ kv.2.indices.map Int.ofNat)) →
      (buildGo total recO l dIdx a).2 = a := by
  intro l
  induction l with
  | nil =>
    intro dIdx a _
    rfl
  | cons kv rest ih =>
    intro dIdx a h
    simp only [buildGo]
    rw [if_neg (h kv (by simp))]
    exact ih (dIdx + 1) a (fun kv' hkv' => h kv' (by simp [hkv']))

theorem buildGo_snd_recO_zero (total : ℕ) :
    ∀ l dIdx a, (buildGo total 0 l dIdx a).2 = a := by
  intro l
  induction l with
  | nil =>
    intro dIdx a
    rfl
  | cons kv rest ih =>
    intro dIdx a
    simp only [buildGo]
    rw [if_neg (by simp)]
    exact ih _ _

/-- With no recommended cluster, a cluster line does not depend on the
confidence string. -/
theorem renderEntryLines_zero (conf conf' : String) (e : RenderEntry) :
    renderEntryLines 0 conf e = renderEntryLines 0 conf' e := by
  simp [renderEntryLines, clusterTrustShown]

/-- When no cluster is recommended the whole rendered report is independent of
the evaluation. -/
theorem renderLines_no_recommendation (guides : List Guide) (provider : String)
    (ev : List (String × PyJson)) (mn rc : Option String)
    (hA : (buildAggregated (aggregate guides) (recommendedOriginalIndex (some ev))).2 = 0) :
    renderLines guides provider (some ev) mn rc = renderLines guides provider none mn rc := by
  have hent := buildGo_fst_indep (aggregate guides).2 (aggregate guides).1
    (recommendedOriginalIndex (some ev)) (recommendedOriginalIndex none) 1 0 0
  have hz : (buildGo (aggregate guides).2 (recommendedOriginalIndex none)
      (aggregate guides).1 1 0).2 = 0 := by
    rw [show recommendedOriginalIndex none = 0 from rfl]
    exact buildGo_snd_recO_zero _ _ _ _
  simp only [buildAggregated] at hA
  simp only [renderLines, buildAggregated]
  rw [hA, hent, hz]
  simp only [ne_eq, not_true_eq_false, and_false, if_false]
  congr 1
  exact congrArg List.flatten (listMapExt _ _ (fun e => renderEntryLines_zero _ _ e) _)

/-- **C7.** An evaluation whose recommended index is unparsable (treated as 0)
or outside `1..N` produces exactly the output produced with no evaluation at
all: no recommended glyph, no "Recommended Guide" summary line, and every
cluster shows its occurrence-based trust. -/
theorem formatGuideOutput_invalid_recommendation_ignored
    (guides : List Guide) (provider : String) (ev : List (String × PyJson))
    (mn rc : Option String)
    (h : recommendedOriginalIndex (some ev) < 1 ∨
         (guides.length : ℤ) < recommendedOriginalIndex (some ev)) :
    formatGuideOutput guides provider (some ev) mn rc =
      formatGuideOutput guides provider none mn rc := by
  have hA : (buildAggregated (aggregate guides) (recommendedOriginalIndex (some ev))).2 = 0 := by
    apply buildGo_snd_nomatch
    intro kv hkv
    rintro ⟨hne, hmem⟩
    obtain ⟨j, hj, hje⟩ := List.mem_map.mp hmem
    have hb := aggregate_indices_bound guides kv hkv j hj
    have hje' : (j : ℤ) = recommendedOriginalIndex (some ev) := hje
    omega
  unfold formatGuideOutput
  by_cases hg : guides = []
  · rw [if_pos hg, if_pos hg]
  · rw [if_neg hg, if_neg hg, renderLines_no_recommendation guides provider ev mn rc hA]

theorem formatGuideOutput_invalid_recommendation_ignored_witness :
    recommendedOriginalIndex (some evalW7) < 1 ∧
    formatGuideOutput guidesW7 ("Gemini") (some evalW7) (some ("gemini-2.5-flash")) none =
      formatGuideOutput guidesW7 ("Gemini") none (some ("gemini-2.5-flash")) none :=
  ⟨by decide,
   formatGuideOutput_invalid_recommendation_ignored guidesW7 ("Gemini") evalW7
     (some ("gemini-2.5-flash")) none (Or.inl (by decide))⟩

/-- When the first cluster's indices contain the recommended original index
and no later cluster's do, the first display cluster is the recommended one. -/
theorem buildGo_snd_head_match (total : ℕ) (recO : ℤ) (k : String) (ent : AggEntry)
    (rest : List (String × AggEntry)) (hne : recO ≠ 0)
    (hhead : recO ∈ ent.indices.map Int.ofNat)
    (hrest : ∀ kv ∈ rest, ¬ (recO ≠ 0 ∧ recO ∈ kv.2.indices.map Int.ofNat)) :
    (buildGo total recO ((k, ent) :: rest) 1 0).2 = 1 := by
  simp only [buildGo]
  rw [if_pos ⟨hne, hhead⟩]
  exact buildGo_snd_nomatch total recO rest 2 1 hrest

/-- Shape of the aggregation of three raw candidates whose second candidate
normalizes to the first's key: the first cluster holds original index 2 and no
later cluster does. -/
theorem aggregate_c5_shape (g1 g2 g3 : Guide) (h1 : pyStrip g1.text ≠ "")
    (h2 : pyStrip g2.text ≠ "")
    (heq : pyNorm (pyStrip g2.text) = pyNorm (pyStrip g1.text)) :
    ∃ ent rest,
      (aggregate [g1, g2, g3]).1 = (pyNorm (pyStrip g1.text), ent) :: rest ∧
      (2 : ℤ) ∈ ent.indices.map Int.ofNat ∧
      (∀ kv ∈ rest, (2 : ℤ) ∉ kv.2.indices.map Int.ofNat) := by
  unfold aggregate
  rw [aggregateGo_cons_usable _ _ _ _ _ h1]
  simp only [hasKey, List.any_nil, Bool.false_eq_true, if_false, List.nil_append, updateEntry,
    List.map_cons, List.map_nil, eq_self_iff_true, if_true, Nat.zero_add]
  rw [aggregateGo_cons_usable _ _ _ _ _ h2, heq]
  simp only [hasKey, List.any_cons, List.any_nil, beq_self_eq_true, Bool.true_or, Bool.or_false,
    if_true, updateEntry, List.map_cons, List.map_nil, eq_self_iff_true, List.nil_append,
    List.cons_append, List.singleton_append, Nat.reduceAdd]
  by_cases h3 : pyStrip g3.text = ""
  · rw [aggregateGo_cons_empty _ _ _ _ _ h3]
    refine ⟨_, [], rfl, List.mem_map.mpr ⟨2, by simp, rfl⟩, by simp⟩
  · rw [aggregateGo_cons_usable _ _ _ _ _ h3]
    by_cases hk : pyNorm (pyStrip g3.text) = pyNorm (pyStrip g1.text)
    · rw [hk]
      simp only [hasKey, List.any_cons, List.any_nil, beq_self_eq_true, Bool.true_or,
        Bool.or_false, if_true, updateEntry, List.map_cons, List.map_nil, eq_self_iff_true,
        List.cons_append, List.nil_append, List.singleton_append, Nat.reduceAdd]
      refine ⟨_, [], rfl, List.mem_map.mpr ⟨2, by simp, rfl⟩, by simp⟩
    · have hk' : pyNorm (pyStrip g1.text) ≠ pyNorm (pyStrip g3.text) := Ne.symm hk
      simp only [hasKey, List.any_cons, List.any_nil, Bool.or_false, updateEntry, List.map_cons,
        List.map_nil, List.cons_append, List.nil_append, List.singleton_append,
        beq_iff_eq, hk', if_false, hk, Nat.zero_add, eq_self_iff_true, if_true,
        Bool.false_eq_true, Nat.reduceAdd]
      refine ⟨_, _, rfl, List.mem_map.mpr ⟨2, by simp, rfl⟩, ?_⟩
      intro kv hkv
      simp only [List.mem_singleton] at hkv
      subst hkv
      simp

/-- **C5.** Given three raw candidates whose second candidate's normalized
text equals the first's, and the evaluation `{recommended_index: 2,
confidence: 90, reasoning: "Matches known walkthrough"}`, the first display
cluster is the recommended one (pre-aggregation index 2 falls inside it), its
shown trust is the confidence string `"90%"` instead of the occurrence-based
trust, and every other cluster keeps its computed trust. -/
theorem formatGuideOutput_recommended_cluster_override
    (g1 g2 g3 : Guide) (h1 : pyStrip g1.text ≠ "") (h2 : pyStrip g2.text ≠ "")
    (heq : pyNorm (pyStrip g2.text) = pyNorm (pyStrip g1.text)) :
    (buildAggregated (aggregate [g1, g2, g3]) (recommendedOriginalIndex (some evalC5))).2 = 1 ∧
    confidenceDisplay (some evalC5) = "90%" ∧
    (∀ e ∈ (buildAggregated (aggregate [g1, g2, g3])
        (recommendedOriginalIndex (some evalC5))).1,
      e.displayIndex = 1 →
      clusterTrustShown
        (buildAggregated (aggregate [g1, g2, g3]) (recommendedOriginalIndex (some evalC5))).2
        (confidenceDisplay (some evalC5)) e = "90%") ∧
    (∀ e ∈ (buildAggregated (aggregate [g1, g2, g3])
        (recommendedOriginalIndex (some evalC5))).1,
      e.displayIndex ≠ 1 →
      clusterTrustShown
        (buildAggregated (aggregate [g1, g2, g3]) (recommendedOriginalIndex (some evalC5))).2
        (confidenceDisplay (some evalC5)) e = e.trust) := by
  obtain ⟨ent, rest, hshape, hmem, hrest⟩ := aggregate_c5_shape g1 g2 g3 h1 h2 heq
  have hrec : recommendedOriginalIndex (some evalC5) = 2 := rfl
  have hconf : confidenceDisplay (some evalC5) = "90%" := rfl
  have hAgg : (buildAggregated (aggregate [g1, g2, g3])
      (recommendedOriginalIndex (some evalC5))).2 = 1 := by
    rw [hrec]
    unfold buildAggregated
    rw [hshape]
    exact buildGo_snd_head_match _ 2 _ ent rest (by decide) hmem
      (fun kv hkv hcon => hrest kv hkv hcon.2)
  refine ⟨hAgg, hconf, ?_, ?_⟩
  · intro e _ hd
    rw [hAgg, hconf]
    unfold clusterTrustShown
    rw [if_pos ⟨hd, by omega, by decide⟩]
  · intro e _ hd
    rw [hAgg, hconf]
    unfold clusterTrustShown
    rw [if_neg (fun hcon => hd hcon.1)]

theorem formatGuideOutput_recommended_cluster_override_witness :
    pyStrip guidesW5b.text ≠ "" ∧
    pyNorm (pyStrip guidesW5b.text) = pyNorm (pyStrip guidesW5a.text) ∧
    (buildAggregated (aggregate [guidesW5a, guidesW5b, guidesW5c])
      (recommendedOriginalIndex (some evalC5))).2 = 1 ∧
    confidenceDisplay (some evalC5) = "90%" :=
  ⟨by decide, by decide,
   (formatGuideOutput_recommended_cluster_override guidesW5a guidesW5b guidesW5c
      (by decide) (by decide) (by decide)).1,
   (formatGuideOutput_recommended_cluster_override guidesW5a guidesW5b guidesW5c
      (by decide) (by decide) (by decide)).2.1⟩
